import Mathlib

/-
Verification of the agent-bletchley job orchestration core against its
specification.  The Python source is shallowly embedded: the research loop
of ResearchEngine._run_research_loop is compiled to a straight-line script
of database operations and broadcast events (the loop has no data-dependent
control flow), executed by an interpreter that can inject a fault at any
database call, mirroring the try/except structure of the source.
-/

namespace Bletchley

/-- Job status enumeration (app/models/research_job.py, ResearchJobStatus). -/
inductive JobStatus
  | pending
  | running
  | completed
  | failed
  | cancelled
deriving DecidableEq, Repr

/-- Database operations invoked by the research loop (app/db/supabase_client.py
    entry points used from research_engine.py). -/
inductive DbOp
  | updateJobStatus (status : JobStatus) (progress : Option ℚ)
  | updateJobReport (report : String)
  | addIteration (seq : ℕ) (action : String)
  | addSource (url : String) (title : String) (snippet : String)
deriving DecidableEq, Repr

/-- WebSocket events produced through ConnectionManager broadcast methods. -/
inductive WsEvent
  | status (status : JobStatus) (progress : Option ℚ)
  | iteration (step : ℕ) (action : String)
  | source (url : String) (title : String) (snippet : String)
  | report (text : String)
  | error (message : String)
deriving DecidableEq, Repr

/-- One step of the loop: a persistence call or an event broadcast. -/
inductive Action
  | db (op : DbOp)
  | ev (e : WsEvent)
deriving DecidableEq, Repr

/-- research_engine.py line 96: max_iterations = 20. -/
def max_iterations : ℕ := 20

/-- research_engine.py line 260: the synthesized report string. -/
def synthesisReport : String := "Research synthesis pending implementation"

/-- research_engine.py line 113: progress = min(100, (iteration_count / max_iterations) * 100). -/
def progressAt (i : ℕ) : ℚ := min 100 ((i : ℚ) / (max_iterations : ℚ) * 100)

/-- research_engine.py line 150: simulated source URL. -/
def sourceUrl (i : ℕ) : String := "https://example.com/source-" ++ toString i

/-- research_engine.py line 151: simulated source title. -/
def sourceTitle (i : ℕ) : String := "Source " ++ toString i

/-- research_engine.py line 152: simulated source snippet. -/
def sourceSnippet (q : String) : String := "Relevant information for: " ++ q

/-- Broadcast an event only when a connection manager was supplied
    (the `if connection_manager:` guards in research_engine.py). -/
def emitIf (cm : Bool) (e : WsEvent) : List Action :=
  if cm then [Action.ev e] else []

/-- The body of one loop iteration (research_engine.py lines 111-170):
    persist the iteration, broadcast it, persist progress, broadcast status,
    and on every 3rd iteration persist and broadcast a simulated source. -/
def iterationActions (q : String) (cm : Bool) (i : ℕ) : List Action :=
  [Action.db (DbOp.addIteration i "research")] ++
  emitIf cm (WsEvent.iteration i "research") ++
  [Action.db (DbOp.updateJobStatus JobStatus.running (some (progressAt i)))] ++
  emitIf cm (WsEvent.status JobStatus.running (some (progressAt i))) ++
  (if i % 3 = 0 then
    [Action.db (DbOp.addSource (sourceUrl i) (sourceTitle i) (sourceSnippet q))] ++
    emitIf cm (WsEvent.source (sourceUrl i) (sourceTitle i) (sourceSnippet q))
  else [])

/-- The intended straight-line behaviour of _run_research_loop when no
    exception occurs (research_engine.py lines 99-192): status prologue,
    a fixed 20-iteration loop, then synthesis, report persistence and the
    terminal completed status. -/
def loopScript (q : String) (cm : Bool) : List Action :=
  [Action.db (DbOp.updateJobStatus JobStatus.running (some 0))] ++
  emitIf cm (WsEvent.status JobStatus.running (some 0)) ++
  (List.range max_iterations).flatMap (fun k => iterationActions q cm (k + 1)) ++
  [Action.db (DbOp.updateJobReport synthesisReport)] ++
  emitIf cm (WsEvent.report synthesisReport) ++
  [Action.db (DbOp.updateJobStatus JobStatus.completed (some 100))] ++
  emitIf cm (WsEvent.status JobStatus.completed (some 100))

/-- Execute a script with an optional injected fault: `some k` makes the
    k-th database call (0-based) raise, aborting the rest of the script,
    exactly as an awaited supabase call raising inside the `try` block
    aborts the loop.  Returns the executed prefix and whether a fault fired. -/
def execActions : Option ℕ → List Action → List Action × Bool
  | _, [] => ([], false)
  | some 0, Action.db _ :: _ => ([], true)
  | some (k + 1), Action.db d :: rest =>
    let r := execActions (some k) rest
    (Action.db d :: r.1, r.2)
  | none, Action.db d :: rest =>
    let r := execActions none rest
    (Action.db d :: r.1, r.2)
  | failAt, Action.ev e :: rest =>
    let r := execActions failAt rest
    (Action.ev e :: r.1, r.2)

/-- The except-branch of _run_research_loop (lines 194-207): persist status
    failed with progress None, broadcast error then status(failed, None). -/
def failureActions (cm : Bool) (emsg : String) : List Action :=
  [Action.db (DbOp.updateJobStatus JobStatus.failed none)] ++
  emitIf cm (WsEvent.error emsg) ++
  emitIf cm (WsEvent.status JobStatus.failed none)

/-- _run_research_loop: run the script, and if a fault fired run the
    exception handler's actions. -/
def run_research_loop (q : String) (cm : Bool) (failAt : Option ℕ) (emsg : String) :
    List Action :=
  let r := execActions failAt (loopScript q cm)
  if r.2 then r.1 ++ failureActions cm emsg else r.1

/-- Database operations of a trace, in order. -/
def dbTrace (tr : List Action) : List DbOp :=
  tr.filterMap (fun a => match a with | .db d => some d | .ev _ => none)

/-- Broadcast events of a trace, in order. -/
def evTrace (tr : List Action) : List WsEvent :=
  tr.filterMap (fun a => match a with | .ev e => some e | .db _ => none)

/-- Number of database calls a script performs. -/
def dbCount (tr : List Action) : ℕ := (dbTrace tr).length

/-- Sequence numbers of persisted iterations. -/
def iterationSeqs (ops : List DbOp) : List ℕ :=
  ops.filterMap (fun op => match op with | .addIteration n _ => some n | _ => none)

/-- Progress values persisted with a running status, in order. -/
def runningProgress (ops : List DbOp) : List (Option ℚ) :=
  ops.filterMap (fun op =>
    match op with | .updateJobStatus .running p => some p | _ => none)

/-- Progress values broadcast with a running status event, in order. -/
def eventRunningProgress (es : List WsEvent) : List (Option ℚ) :=
  es.filterMap (fun e =>
    match e with | .status .running p => some p | _ => none)

/-- Whether an event is a report event. -/
def isReportEvent : WsEvent → Bool
  | .report _ => true
  | _ => false

/-
TongyiClient.chat_completion (app/orchestrator/tongyi_client.py).  HTTP
responses are opaque to the client except for the status code, the
Retry-After header and the JSON-decoded body, which we model with a small
JSON value type.  Python-level operations on decoded values can raise:
ValueError/KeyError are fatal for the call (the except (ValueError, KeyError)
branch re-raises), while TypeError/AttributeError/IndexError fall through to
the generic except Exception branch and are retried; the PyErr type keeps
the two classes apart.
-/

/-- JSON values. -/
inductive JVal
  | null
  | bool (b : Bool)
  | num (n : ℤ)
  | str (s : String)
  | arr (xs : List JVal)
  | obj (fields : List (String × JVal))

/-- Python truthiness of a decoded JSON value. -/
def truthy : JVal → Bool
  | .null => false
  | .bool b => b
  | .num n => n != 0
  | .str s => s != ""
  | .arr xs => !xs.isEmpty
  | .obj fs => !fs.isEmpty

/-- Errors raised while handling a response body: valueErr models
    ValueError and KeyError (fatal, never retried); typeErr models
    TypeError/AttributeError/IndexError, which reach the generic handler
    and are retried. -/
inductive PyErr
  | valueErr (msg : String)
  | typeErr
deriving DecidableEq, Repr

/-- Whether pat occurs as a substring of s. -/
def strContainsSubstr (s pat : String) : Bool := (s.splitOn pat).length != 1

/-- Python `key in xs` for a list: some element equals the string key
    (equality of a str with a value of any other type is False). -/
def jvalMemStr (key : String) : List JVal → Bool
  | [] => false
  | JVal.str s :: rest => s == key || jvalMemStr key rest
  | _ :: rest => jvalMemStr key rest

/-- Python membership test `key in v`: key lookup on a dict, element
    membership on a list, substring test on a string; TypeError otherwise. -/
def jContainsKey (key : String) : JVal → Except PyErr Bool
  | .obj fs => .ok (List.lookup key fs).isSome
  | .arr xs => .ok (jvalMemStr key xs)
  | .str s => .ok (strContainsSubstr s key)
  | _ => .error .typeErr

/-- Python subscript `v[key]` with a string key. -/
def jGetItem (v : JVal) (key : String) : Except PyErr JVal :=
  match v with
  | .obj fs =>
    match List.lookup key fs with
    | some x => .ok x
    | none => .error (.valueErr ("KeyError: " ++ key))
  | _ => .error .typeErr

/-- Python `v.get(key, dflt)`: AttributeError on a non-dict. -/
def jGetDefault (v : JVal) (key : String) (dflt : JVal) : Except PyErr JVal :=
  match v with
  | .obj fs => .ok ((List.lookup key fs).getD dflt)
  | _ => .error .typeErr

/-- Python `len(v)`. -/
def jLen : JVal → Except PyErr ℕ
  | .arr xs => .ok xs.length
  | .str s => .ok s.length
  | .obj fs => .ok fs.length
  | _ => .error .typeErr

/-- Python `v[0]`: head of a list, first character of a string, KeyError
    on a dict (its JSON keys are strings, never the integer 0). -/
def jIndexZero : JVal → Except PyErr JVal
  | .arr [] => .error .typeErr
  | .arr (x :: _) => .ok x
  | .str s =>
    match s.data with
    | [] => .error .typeErr
    | c :: _ => .ok (.str (String.mk [c]))
  | .obj _ => .error (.valueErr "KeyError: 0")
  | _ => .error .typeErr

/-- Python `for x in v`: elements of a list, characters of a string, keys
    of a dict; TypeError otherwise. -/
def jIterate : JVal → Except PyErr (List JVal)
  | .arr xs => .ok xs
  | .str s => .ok (s.data.map (fun c => JVal.str (String.mk [c])))
  | .obj fs => .ok (fs.map (fun f => JVal.str f.1))
  | _ => .error .typeErr

/-- Whether a JSON value is a dict. -/
def jIsObj : JVal → Bool
  | .obj _ => true
  | _ => false

/-- Whether a JSON value is a dict containing the given key. -/
def jHasKey (v : JVal) (key : String) : Bool :=
  match v with
  | .obj fs => (List.lookup key fs).isSome
  | _ => false

/-- Python dict assignment on a field list: replace the key's value if
    present, append otherwise. -/
def setKey : List (String × JVal) → String → JVal → List (String × JVal)
  | [], k, v => [(k, v)]
  | (k0, v0) :: rest, k, v =>
    if k0 = k then (k, v) :: rest else (k0, v0) :: setKey rest k v

/-- tongyi_client.py lines 184-203: validate a single raw tool call.
    A non-dict entry, or a dict without a function field, is skipped
    (returns none).  Otherwise, when the function's arguments arrive as a
    string they are decoded with the ambient JSON decoder sd, a decode
    failure degrading to an empty argument dict. -/
def parseToolCall (sd : String → Option JVal) (tc : JVal) :
    Except PyErr (Option JVal) :=
  match tc with
  | .obj fs =>
    match List.lookup "function" fs with
    | none => .ok none
    | some fn =>
      match jContainsKey "arguments" fn with
      | .error e => .error e
      | .ok false => .ok (some tc)
      | .ok true =>
        match fn with
        | .obj gfs =>
          match List.lookup "arguments" gfs with
          | some (.str s) =>
            .ok (some (.obj (setKey fs "function"
              (.obj (setKey gfs "arguments" ((sd s).getD (.obj [])))))))
          | some _ => .ok (some tc)
          | none => .error .typeErr
        | _ => .error .typeErr
  | _ => .ok none

/-- The tool-call loop of tongyi_client.py lines 183-203. -/
def parseToolCalls (sd : String → Option JVal) :
    List JVal → Except PyErr (List JVal)
  | [] => .ok []
  | tc :: rest =>
    match parseToolCall sd tc with
    | .error e => .error e
    | .ok none => parseToolCalls sd rest
    | .ok (some p) =>
      match parseToolCalls sd rest with
      | .error e => .error e
      | .ok ps => .ok (p :: ps)

/-- tongyi_client.py lines 166-180: when there is content but no raw tool
    calls, the content is probed with substring membership tests for
    diagnostic logging.  All five probes have identical error behaviour
    (it depends only on the type of content), so one probe is modelled. -/
def contentIndicatorCheck (content rawToolCalls : JVal) : Except PyErr Unit :=
  if truthy content && !truthy rawToolCalls then
    match jContainsKey "\"arguments\"" content with
    | .error e => .error e
    | .ok _ => .ok ()
  else .ok ()

/-- How the error message field is interpolated into an f-string; the
    composite cases abbreviate the textual rendering (the exact log text is
    immaterial, only that a ValueError with some message is raised). -/
def jDisplay : JVal → String
  | .null => "None"
  | .bool true => "True"
  | .bool false => "False"
  | .num n => toString n
  | .str s => s
  | .arr _ => "<list>"
  | .obj _ => "<dict>"

/-- tongyi_client.py lines 132-148: diagnostic branch when the decoded
    response is falsy or has no choices key.  error_info.get on a non-dict
    error field raises AttributeError (generic handler). -/
def missingChoicesError (rd : JVal) : PyErr :=
  match rd with
  | .obj fs =>
    match List.lookup "error" fs with
    | some (.obj gs) =>
      .valueErr ("API error: " ++
        (match List.lookup "message" gs with
         | some (.str m) => m
         | some v => jDisplay v
         | none => "Unknown error"))
    | some _ => .typeErr
    | none => .valueErr "Invalid response structure: missing choices field"
  | _ => .valueErr "Invalid response structure: missing choices field"

/-- The normalized result of a successful chat completion
    (tongyi_client.py lines 205-210). -/
structure ChatResult where
  tool_calls : List JVal
  content : JVal
  message : JVal
  usage : JVal

/-- tongyi_client.py lines 157-213 given the message object: read the raw
    tool calls and content, run the diagnostic probe, normalize each tool
    call, read usage, and evaluate len(content) as the success log line
    does, then build the result.  The result's content collapses falsy
    content to the empty string. -/
def parseMessage (sd : String → Option JVal) (rd message : JVal) :
    Except PyErr ChatResult :=
  match jGetDefault message "tool_calls" (.arr []) with
  | .error e => .error e
  | .ok rawToolCalls =>
    match jGetDefault message "content" (.str "") with
    | .error e => .error e
    | .ok content =>
      match contentIndicatorCheck content rawToolCalls with
      | .error e => .error e
      | .ok _ =>
        match jIterate rawToolCalls with
        | .error e => .error e
        | .ok entries =>
          match parseToolCalls sd entries with
          | .error e => .error e
          | .ok parsed =>
            match jGetDefault rd "usage" (.obj []) with
            | .error e => .error e
            | .ok usage =>
              match jLen content with
              | .error e => .error e
              | .ok _ =>
                .ok ⟨parsed, if truthy content then content else .str "",
                     message, usage⟩

/-- tongyi_client.py lines 122-213: decode and validate a response body.
    none models a body that is not valid JSON. -/
def parseResponse (sd : String → Option JVal) (body : Option JVal) :
    Except PyErr ChatResult :=
  match body with
  | none => .error (.valueErr "Invalid JSON response from API")
  | some rd =>
    match jContainsKey "choices" rd with
    | .error e => .error e
    | .ok hasChoices =>
      if !truthy rd || !hasChoices then .error (missingChoicesError rd)
      else
        match jGetItem rd "choices" with
        | .error e => .error e
        | .ok choices =>
          if !truthy choices then
            .error (.valueErr "Invalid response structure: empty choices array")
          else
            match jLen choices with
            | .error e => .error e
            | .ok n =>
              if n = 0 then
                .error (.valueErr "Invalid response structure: empty choices array")
              else
                match jIndexZero choices with
                | .error e => .error e
                | .ok choice =>
                  match jContainsKey "message" choice with
                  | .error e => .error e
                  | .ok hasMsg =>
                    if !hasMsg then
                      .error
                        (.valueErr "Invalid response structure: missing message field in choice")
                    else
                      match jGetItem choice "message" with
                      | .error e => .error e
                      | .ok message => parseMessage sd rd message

/-- What one HTTP attempt yields: a response with status code, optional
    parsed Retry-After header and JSON-decoded body (none for a non-JSON
    body), or an httpx.RequestError, or an httpx.TimeoutException. -/
inductive HttpOutcome
  | response (status : ℕ) (retryAfter : Option ℚ) (body : Option JVal)
  | requestError
  | timeoutError

/-- How chat_completion ultimately fails: an httpx.HTTPStatusError with the
    response status, a network-level error, a ValueError/KeyError from
    parsing (never retried), an unexpected exception surviving all retries,
    or the unreachable fallback after the loop. -/
inductive CallErr
  | httpStatus (status : ℕ)
  | network
  | parse (msg : String)
  | unexpected
  | runtime (msg : String)
deriving DecidableEq, Repr

/-- Observable outcome of chat_completion: the result, the sleeps performed
    between attempts (in order), and how many attempts were made. -/
structure CallOutcome where
  result : Except CallErr ChatResult
  sleeps : List ℚ
  attempts : ℕ

/-- Record a sleep before the remaining attempts. -/
def addSleep (d : ℚ) (r : CallOutcome) : CallOutcome :=
  ⟨r.result, d :: r.sleeps, r.attempts⟩

/-- tongyi_client.py line 84: max_attempts = 3. -/
def max_attempts : ℕ := 3

/-- tongyi_client.py line 85: delays = [1.0, 2.0, 4.0]. -/
def delays : List ℚ := [1, 2, 4]

/-- tongyi_client.py lines 112 and 226: delays[min(attempt, len(delays) - 1)]. -/
def backoffDelay (attempt : ℕ) : ℚ :=
  delays.getD (min attempt (delays.length - 1)) 0

/-- One pass of the retry loop of chat_completion (lines 88-266), indexed
    by remaining fuel (loop iterations left) and the current attempt
    number.  A 429 sleeps for the Retry-After hint when present, else the
    backoff delay, and on the final attempt surfaces as an HTTPStatusError;
    other 4xx raise immediately; 5xx, request errors and timeouts sleep for
    the backoff delay and retry, surfacing after the final attempt;
    ValueError/KeyError from parsing raise immediately; other parsing
    exceptions are retried like transient errors. -/
def chatAttempt (env : ℕ → HttpOutcome) (sd : String → Option JVal) :
    ℕ → ℕ → CallOutcome
  | 0, attempt =>
    ⟨.error (.runtime "Failed to complete request after all retries"), [], attempt⟩
  | fuel + 1, attempt =>
    match env attempt with
    | .response status retryAfter body =>
      if status = 429 then
        if attempt < max_attempts - 1 then
          addSleep (retryAfter.getD (backoffDelay attempt))
            (chatAttempt env sd fuel (attempt + 1))
        else ⟨.error (.httpStatus 429), [], attempt + 1⟩
      else if 400 ≤ status then
        if status < 500 then ⟨.error (.httpStatus status), [], attempt + 1⟩
        else if attempt < max_attempts - 1 then
          addSleep (backoffDelay attempt) (chatAttempt env sd fuel (attempt + 1))
        else ⟨.error (.httpStatus status), [], attempt + 1⟩
      else
        match parseResponse sd body with
        | .ok r => ⟨.ok r, [], attempt + 1⟩
        | .error (.valueErr m) => ⟨.error (.parse m), [], attempt + 1⟩
        | .error .typeErr =>
          if attempt < max_attempts - 1 then
            addSleep (backoffDelay attempt) (chatAttempt env sd fuel (attempt + 1))
          else ⟨.error .unexpected, [], attempt + 1⟩
    | .requestError =>
      if attempt < max_attempts - 1 then
        addSleep (backoffDelay attempt) (chatAttempt env sd fuel (attempt + 1))
      else ⟨.error .network, [], attempt + 1⟩
    | .timeoutError =>
      if attempt < max_attempts - 1 then
        addSleep (backoffDelay attempt) (chatAttempt env sd fuel (attempt + 1))
      else ⟨.error .network, [], attempt + 1⟩

/-- TongyiClient.chat_completion as a function of the per-attempt HTTP
    environment and the ambient JSON string decoder. -/
def chat_completion (env : ℕ → HttpOutcome) (sd : String → Option JVal) :
    CallOutcome :=
  chatAttempt env sd max_attempts 0

/-- An attempt outcome the client treats as transient: a request error, a
    timeout, or a response with a 5xx (or higher) status. -/
def TransientOutcome (o : HttpOutcome) : Prop :=
  o = HttpOutcome.requestError ∨ o = HttpOutcome.timeoutError ∨
    ∃ s ra b, 500 ≤ s ∧ o = HttpOutcome.response s ra b

/-
ConnectionManager._broadcast_to_job (app/api/websocket.py lines 54-82).
Subscriber channels are opaque handles; whether send_json succeeds on a
channel is an oracle.  The connection map sends each job id to its list of
live subscribers; the empty list represents a job id absent from the dict
(the manager deletes a key as soon as its set empties, so present keys
always hold nonempty sets).
-/

/-- The delivery for-loop (websocket.py lines 69-74): try send_json on each
    connection of the snapshot in order; a connection whose send raises is
    collected as disconnected instead of propagating the error.  Returns
    (delivered, disconnected). -/
def sendToAll (fails : ℕ → Bool) : List ℕ → List ℕ × List ℕ
  | [] => ([], [])
  | c :: rest =>
    let r := sendToAll fails rest
    if fails c then (r.1, c :: r.2) else (c :: r.1, r.2)

/-- _broadcast_to_job: return unchanged when the job has no connections;
    otherwise snapshot the set, attempt delivery to every member, then
    discard each disconnected member from the live set (lines 77-82; the
    key deletion for an emptied set is the representation's empty list). -/
def broadcast_to_job (m : String → List ℕ) (jobId : String) (fails : ℕ → Bool) :
    (String → List ℕ) × List ℕ :=
  if m jobId = [] then (m, [])
  else
    let conns := m jobId
    let dr := sendToAll fails conns
    let remaining := conns.filter (fun c => !(dr.2.contains c))
    (fun j => if j = jobId then remaining else m j, dr.1)

/-
WebSearchTool.search (app/tools/web_search.py).
-/

/-- A formatted search result; the fields hold the raw JSON values the code
    stores (line 96 keeps a result only when title and url are truthy). -/
structure SearchResult where
  title : JVal
  url : JVal
  snippet : JVal

/-- What the single HTTP call of search yields: a decoded JSON body, an
    HTTP error status, a request error, a timeout, or any other
    exception. -/
inductive SearchOutcome
  | success (body : JVal)
  | httpStatusError (status : ℕ)
  | requestError
  | timeoutError
  | otherError

/-- web_search.py line 85: data.get("web", {}).get("results", []),
    as consumed by the slicing loop of line 89.  none models a Python
    exception (AttributeError from .get on a non-dict, TypeError from
    slicing an unsliceable value), which the blanket handler converts to
    an empty result list; a string results value slices and iterates into
    its characters. -/
def searchItems (body : JVal) : Option (List JVal) :=
  match body with
  | .obj fs =>
    match (List.lookup "web" fs).getD (.obj []) with
    | .obj gs =>
      match (List.lookup "results" gs).getD (.arr []) with
      | .arr xs => some xs
      | .str s => some (s.data.map (fun c => JVal.str (String.mk [c])))
      | _ => none
    | _ => none
  | _ => none

/-- web_search.py lines 89-97: format each raw item, keeping those whose
    title and url are truthy.  A non-dict item makes item.get raise
    (AttributeError), which the blanket handler converts to an empty
    result list: none. -/
def collectResults : List JVal → Option (List SearchResult)
  | [] => some []
  | item :: rest =>
    match item with
    | .obj fs =>
      let title := (List.lookup "title" fs).getD (.str "")
      let url := (List.lookup "url" fs).getD (.str "")
      let snippet := (List.lookup "description" fs).getD (.str "")
      match collectResults rest with
      | none => none
      | some rs =>
        some (if truthy title && truthy url then ⟨title, url, snippet⟩ :: rs else rs)
    | _ => none

/-- The body of WebSearchTool.search for a single string query
    (web_search.py lines 61-113): empty or blank query short-circuits to
    []; count is capped at 10; every except branch returns []. -/
def web_searchStr (q : String) (count : ℕ) (outcome : SearchOutcome) :
    List SearchResult :=
  if q.trim = "" then []
  else
    let count := min count 10
    match outcome with
    | .success body =>
      match searchItems body with
      | none => []
      | some xs =>
        match collectResults (xs.take count) with
        | none => []
        | some rs => rs
    | _ => []

/-- WebSearchTool.search including the list-query handling of lines 52-58:
    an empty query list returns [], a multi-element list uses only its
    first element. -/
def web_search (query : String ⊕ List String) (count : ℕ)
    (outcome : SearchOutcome) : List SearchResult :=
  match query with
  | .inl q => web_searchStr q count outcome
  | .inr [] => []
  | .inr (q :: _) => web_searchStr q count outcome

/-
WebFetchTool (app/tools/web_fetch.py).  Content is a list of characters;
Python str.split() with no argument splits on runs of whitespace and
discards empty pieces (the ASCII whitespace characters suffice for the
modelled contents).
-/

/-- ASCII whitespace. -/
def isWsChar (c : Char) : Bool :=
  c = ' ' || c = Char.ofNat 9 || c = Char.ofNat 10 || c = Char.ofNat 13

/-- content.split(): whitespace-separated words, empty pieces discarded. -/
def splitWords : List Char → List (List Char)
  | [] => []
  | c :: cs =>
    if isWsChar c then splitWords cs
    else ((c :: cs).takeWhile (fun d => !(isWsChar d))) ::
      splitWords ((c :: cs).dropWhile (fun d => !(isWsChar d)))
  termination_by l => l.length
  decreasing_by
    · simp only [List.length_cons]
      omega
    · rename_i h
      have hle : ∀ (p : Char → Bool) (l : List Char),
          (l.dropWhile p).length ≤ l.length := by
        intro p l
        induction l with
        | nil => simp
        | cons a t ih =>
          rw [List.dropWhile_cons]
          split
          · exact Nat.le_trans ih (by simp)
          · simp
      simp only [List.dropWhile_cons, List.length_cons]
      rw [if_pos (by simpa using h)]
      exact Nat.lt_succ_of_le (hle _ _)

/-- " ".join(words). -/
def joinWords : List (List Char) → List Char
  | [] => []
  | [w] => w
  | w :: ws => w ++ ' ' :: joinWords ws

/-- WebFetchTool._truncate_content (web_fetch.py lines 32-46). -/
def truncate_content (content : List Char) (maxWords : ℕ) : List Char :=
  let words := splitWords content
  if words.length ≤ maxWords then content
  else joinWords (words.take maxWords)

/-- The truncation step of WebFetchTool.fetch (lines 113-117): truncate to
    at most 10,000 words and count the words of the truncated content. -/
def fetchTruncation (content : List Char) : List Char × ℕ :=
  let truncated := truncate_content content 10000
  (truncated, (splitWords truncated).length)

end Bletchley

namespace Bletchley

theorem dbTrace_nil : dbTrace [] = [] := rfl

theorem dbTrace_cons_db (d : DbOp) (l : List Action) :
    dbTrace (Action.db d :: l) = d :: dbTrace l := rfl

theorem dbTrace_cons_ev (e : WsEvent) (l : List Action) :
    dbTrace (Action.ev e :: l) = dbTrace l := rfl

theorem evTrace_cons_db (d : DbOp) (l : List Action) :
    evTrace (Action.db d :: l) = evTrace l := rfl

theorem evTrace_cons_ev (e : WsEvent) (l : List Action) :
    evTrace (Action.ev e :: l) = e :: evTrace l := rfl

theorem execActions_none (tr : List Action) : execActions none tr = (tr, false) := by
  induction tr with
  | nil => rfl
  | cons a rest ih =>
    cases a with
    | db d => simp [execActions, ih]
    | ev e => simp [execActions, ih]

theorem execActions_prefix (failAt : Option ℕ) (tr : List Action) :
    ∃ t, (execActions failAt tr).1 ++ t = tr := by
  induction tr generalizing failAt with
  | nil => exact ⟨[], by rcases failAt with _ | (_ | k) <;> rfl⟩
  | cons a rest ih =>
    cases a with
    | db d =>
      match failAt with
      | none =>
        obtain ⟨t, ht⟩ := ih none
        exact ⟨t, by simp [execActions, ht]⟩
      | some 0 => exact ⟨Action.db d :: rest, rfl⟩
      | some (k + 1) =>
        obtain ⟨t, ht⟩ := ih (some k)
        exact ⟨t, by simp [execActions, ht]⟩
    | ev e =>
      obtain ⟨t, ht⟩ := ih failAt
      exact ⟨t, by simp [execActions, ht]⟩

theorem execActions_flag (k : ℕ) (tr : List Action) :
    (execActions (some k) tr).2 = true ↔ k < dbCount tr := by
  induction tr generalizing k with
  | nil => simp [execActions, dbCount, dbTrace]
  | cons a rest ih =>
    cases a with
    | db d =>
      match k with
      | 0 => simp [execActions, dbCount, dbTrace]
      | k + 1 =>
        simp only [execActions]
        rw [ih k]
        simp [dbCount, dbTrace, Nat.succ_lt_succ_iff]
    | ev e =>
      simp only [execActions]
      rw [ih k]
      simp [dbCount, dbTrace]

theorem execActions_dbTrace (k : ℕ) (tr : List Action) :
    dbTrace (execActions (some k) tr).1 = (dbTrace tr).take k := by
  induction tr generalizing k with
  | nil => simp [execActions, dbTrace]
  | cons a rest ih =>
    cases a with
    | db d =>
      match k with
      | 0 => simp [execActions, dbTrace]
      | k + 1 =>
        simp only [execActions]
        rw [dbTrace_cons_db, dbTrace_cons_db, List.take_succ_cons, ih k]
    | ev e =>
      simp only [execActions]
      rw [dbTrace_cons_ev, dbTrace_cons_ev, ih k]

theorem progressAt_mono : Monotone progressAt := by
  intro a b hab
  unfold progressAt
  refine min_le_min le_rfl ?_
  have hpos : (0 : ℚ) < (max_iterations : ℚ) := by norm_num [max_iterations]
  gcongr

theorem progressAt_zero : progressAt 0 = 0 := by
  unfold progressAt
  norm_num

theorem progress_chain (n : ℕ) :
    List.Chain' (· ≤ ·) ((0 : ℚ) :: (List.range n).map (fun k => progressAt (k + 1))) := by
  have h1 : (0 : ℚ) :: (List.range n).map (fun k => progressAt (k + 1)) =
      (List.range (n + 1)).map progressAt := by
    rw [List.range_succ_eq_map]
    simp only [List.map_cons, List.map_map, progressAt_zero]
    rfl
  rw [h1]
  refine (List.chain'_map progressAt).mpr ?_
  rw [List.chain'_range_succ]
  exact fun m _ => progressAt_mono (Nat.le_succ m)

/-- C1: the claimed behaviour — the loop exits early, before the iteration
    cap, as soon as the model returns a final answer — does not exist in the
    code: _run_research_loop is a fixed-iteration simulation that never
    consults a model for a stopping condition.  In every fault-free run,
    regardless of the query and of whether a connection manager is attached,
    the persisted iteration sequence numbers are exactly 1..20: all 20
    iterations are always executed before synthesis. -/
theorem C1_loop_always_runs_full_cap (q : String) (cm : Bool) (emsg : String) :
    iterationSeqs (dbTrace (run_research_loop q cm none emsg)) =
      (List.range max_iterations).map (fun k => k + 1) := by
  cases cm <;> rfl

set_option maxHeartbeats 1600000 in
/-- C2: in every run of the loop that completes, the final report is
    persisted (it is the penultimate database operation), the terminal
    database operation sets status completed with progress exactly 100, the
    report event is emitted exactly once, and the last emitted event is the
    terminal status event carrying (completed, 100) — so the single report
    event precedes it. -/
theorem C2_completed_transition (q emsg : String) :
    (dbTrace (run_research_loop q true none emsg)).getLast? =
        some (DbOp.updateJobStatus JobStatus.completed (some 100)) ∧
      (dbTrace (run_research_loop q true none emsg)).dropLast.getLast? =
        some (DbOp.updateJobReport synthesisReport) ∧
      (evTrace (run_research_loop q true none emsg)).filter isReportEvent =
        [WsEvent.report synthesisReport] ∧
      (evTrace (run_research_loop q true none emsg)).getLast? =
        some (WsEvent.status JobStatus.completed (some 100)) := by
  refine ⟨?_, ?_, ?_, ?_⟩ <;> rfl

/-- C3: if the k-th database call of the loop raises, the run consists of a
    prefix of the fault-free run (every iteration and source persisted before
    the fault remains intact, with no rollback: its database operations are
    exactly the first k fault-free ones), followed by persisting status
    failed with no progress value and emitting an error event and then a
    status event carrying (failed, none). -/
theorem C3_failed_transition (q emsg : String) (k : ℕ)
    (hk : k < dbCount (loopScript q true)) :
    ∃ p, (∃ t, p ++ t = run_research_loop q true none emsg) ∧
      run_research_loop q true (some k) emsg =
        p ++ [Action.db (DbOp.updateJobStatus JobStatus.failed none),
              Action.ev (WsEvent.error emsg),
              Action.ev (WsEvent.status JobStatus.failed none)] ∧
      dbTrace p = (dbTrace (run_research_loop q true none emsg)).take k := by
  refine ⟨(execActions (some k) (loopScript q true)).1, ?_, ?_, ?_⟩
  · obtain ⟨t, ht⟩ := execActions_prefix (some k) (loopScript q true)
    refine ⟨t, ?_⟩
    rw [run_research_loop]
    simp only [execActions_none]
    simpa using ht
  · rw [run_research_loop]
    have hf : (execActions (some k) (loopScript q true)).2 = true :=
      (execActions_flag k _).mpr hk
    simp [hf, failureActions, emitIf]
  · rw [run_research_loop]
    simp only [execActions_none]
    simpa using execActions_dbTrace k (loopScript q true)

/-- Witness for C3 at a concrete input: query "q", error message "boom",
    fault injected at the 4th database call. -/
theorem C3_failed_transition_witness :
    ∃ p, (∃ t, p ++ t = run_research_loop "q" true none "boom") ∧
      run_research_loop "q" true (some 3) "boom" =
        p ++ [Action.db (DbOp.updateJobStatus JobStatus.failed none),
              Action.ev (WsEvent.error "boom"),
              Action.ev (WsEvent.status JobStatus.failed none)] ∧
      dbTrace p = (dbTrace (run_research_loop "q" true none "boom")).take 3 :=
  C3_failed_transition "q" "boom" 3 (by decide)

set_option maxHeartbeats 1600000 in
/-- C6: in every fault-free run, the progress values persisted with running
    status are exactly min(100, i / 20 * 100) for iterations i = 1..20
    (preceded by the prologue value 0), the same values are broadcast as
    status events — one per iteration — and the whole sequence is
    monotonically non-decreasing. -/
theorem C6_progress_values (q emsg : String) :
    runningProgress (dbTrace (run_research_loop q true none emsg)) =
        some 0 :: (List.range max_iterations).map (fun k => some (progressAt (k + 1))) ∧
      eventRunningProgress (evTrace (run_research_loop q true none emsg)) =
        some 0 :: (List.range max_iterations).map (fun k => some (progressAt (k + 1))) ∧
      List.Chain' (· ≤ ·)
        ((0 : ℚ) :: (List.range max_iterations).map (fun k => progressAt (k + 1))) := by
  refine ⟨?_, ?_, ?_⟩
  · rfl
  · rfl
  · exact progress_chain max_iterations

theorem addSleep_result (d : ℚ) (r : CallOutcome) :
    (addSleep d r).result = r.result := rfl

theorem addSleep_attempts (d : ℚ) (r : CallOutcome) :
    (addSleep d r).attempts = r.attempts := rfl

theorem chatAttempt_succ (env : ℕ → HttpOutcome) (sd : String → Option JVal)
    (fuel attempt : ℕ) :
    chatAttempt env sd (fuel + 1) attempt =
      match env attempt with
      | .response status retryAfter body =>
        if status = 429 then
          if attempt < max_attempts - 1 then
            addSleep (retryAfter.getD (backoffDelay attempt))
              (chatAttempt env sd fuel (attempt + 1))
          else ⟨.error (.httpStatus 429), [], attempt + 1⟩
        else if 400 ≤ status then
          if status < 500 then ⟨.error (.httpStatus status), [], attempt + 1⟩
          else if attempt < max_attempts - 1 then
            addSleep (backoffDelay attempt) (chatAttempt env sd fuel (attempt + 1))
          else ⟨.error (.httpStatus status), [], attempt + 1⟩
        else
          match parseResponse sd body with
          | .ok r => ⟨.ok r, [], attempt + 1⟩
          | .error (.valueErr m) => ⟨.error (.parse m), [], attempt + 1⟩
          | .error .typeErr =>
            if attempt < max_attempts - 1 then
              addSleep (backoffDelay attempt) (chatAttempt env sd fuel (attempt + 1))
            else ⟨.error .unexpected, [], attempt + 1⟩
      | .requestError =>
        if attempt < max_attempts - 1 then
          addSleep (backoffDelay attempt) (chatAttempt env sd fuel (attempt + 1))
        else ⟨.error .network, [], attempt + 1⟩
      | .timeoutError =>
        if attempt < max_attempts - 1 then
          addSleep (backoffDelay attempt) (chatAttempt env sd fuel (attempt + 1))
        else ⟨.error .network, [], attempt + 1⟩ := rfl

theorem chatAttempt_attempts_le (env : ℕ → HttpOutcome) (sd : String → Option JVal) :
    ∀ fuel attempt, (chatAttempt env sd fuel attempt).attempts ≤ attempt + fuel := by
  intro fuel
  induction fuel with
  | zero => intro attempt; simp [chatAttempt]
  | succ n ih =>
    intro attempt
    rw [chatAttempt_succ]
    cases env attempt <;>
      (repeat' split) <;>
      first
        | (rw [addSleep_attempts]; exact (ih (attempt + 1)).trans (by omega))
        | (show attempt + 1 ≤ attempt + (n + 1); omega)

theorem chatAttempt_attempts_ge (env : ℕ → HttpOutcome) (sd : String → Option JVal) :
    ∀ fuel attempt,
      min (attempt + 1) (attempt + fuel) ≤ (chatAttempt env sd fuel attempt).attempts := by
  intro fuel
  induction fuel with
  | zero => intro attempt; simp [chatAttempt]
  | succ n ih =>
    intro attempt
    rw [chatAttempt_succ]
    cases env attempt <;>
      (repeat' split) <;>
      first
        | (rw [addSleep_attempts]
           exact le_trans (by omega) (ih (attempt + 1)))
        | (show min (attempt + 1) (attempt + (n + 1)) ≤ attempt + 1
           omega)

theorem chatAttempt_ok_parse (env : ℕ → HttpOutcome) (sd : String → Option JVal) :
    ∀ fuel attempt r, (chatAttempt env sd fuel attempt).result = Except.ok r →
      ∃ body, parseResponse sd body = Except.ok r := by
  intro fuel
  induction fuel with
  | zero =>
    intro attempt r h
    exact absurd h (by simp [chatAttempt])
  | succ n ih =>
    intro attempt r h
    rw [chatAttempt_succ] at h
    cases henv : env attempt with
    | response status retryAfter body =>
      simp only [henv] at h
      split at h
      · split at h
        · rw [addSleep_result] at h
          exact ih _ _ h
        · simp at h
      · split at h
        · split at h
          · simp at h
          · split at h
            · rw [addSleep_result] at h
              exact ih _ _ h
            · simp at h
        · split at h
          · rename_i r0 hpr
            refine ⟨body, ?_⟩
            rw [hpr]
            exact congrArg Except.ok (by simpa using h)
          · simp at h
          · split at h
            · rw [addSleep_result] at h
              exact ih _ _ h
            · simp at h
    | requestError =>
      simp only [henv] at h
      split at h
      · rw [addSleep_result] at h
        exact ih _ _ h
      · simp at h
    | timeoutError =>
      simp only [henv] at h
      split at h
      · rw [addSleep_result] at h
        exact ih _ _ h
      · simp at h

theorem chatAttempt_transient_retry (env : ℕ → HttpOutcome)
    (sd : String → Option JVal) (fuel attempt : ℕ)
    (h : TransientOutcome (env attempt)) (hlt : attempt < max_attempts - 1) :
    chatAttempt env sd (fuel + 1) attempt =
      addSleep (backoffDelay attempt) (chatAttempt env sd fuel (attempt + 1)) := by
  rw [chatAttempt_succ]
  rcases h with h | h | ⟨s, ra, b, hs, h⟩
  · rw [h]
    simp [hlt]
  · rw [h]
    simp [hlt]
  · rw [h]
    have h429 : ¬ s = 429 := by omega
    have h400 : 400 ≤ s := by omega
    have h500 : ¬ s < 500 := by omega
    simp [h429, h400, h500, hlt]

theorem chatAttempt_transient_final (env : ℕ → HttpOutcome)
    (sd : String → Option JVal) (fuel attempt : ℕ)
    (h : TransientOutcome (env attempt)) (hge : ¬ attempt < max_attempts - 1) :
    ∃ e, chatAttempt env sd (fuel + 1) attempt =
      ⟨Except.error e, [], attempt + 1⟩ := by
  rw [chatAttempt_succ]
  rcases h with h | h | ⟨s, ra, b, hs, h⟩
  · exact ⟨CallErr.network, by rw [h]; simp [hge]⟩
  · exact ⟨CallErr.network, by rw [h]; simp [hge]⟩
  · refine ⟨CallErr.httpStatus s, ?_⟩
    rw [h]
    have h429 : ¬ s = 429 := by omega
    have h400 : 400 ≤ s := by omega
    have h500 : ¬ s < 500 := by omega
    simp [h429, h400, h500, hge]

theorem lookup_setKey_self (fs : List (String × JVal)) (k : String) (v : JVal) :
    List.lookup k (setKey fs k v) = some v := by
  induction fs with
  | nil => simp [setKey, List.lookup]
  | cons f rest ih =>
    obtain ⟨k0, v0⟩ := f
    by_cases hk : k0 = k
    · simp [setKey, hk, List.lookup]
    · have hne : (k == k0) = false := beq_eq_false_iff_ne.mpr (Ne.symm hk)
      simp [setKey, hk, List.lookup, hne, ih]

theorem parseToolCall_good (sd : String → Option JVal) (tc p : JVal)
    (h : parseToolCall sd tc = Except.ok (some p)) :
    jIsObj p = true ∧ jHasKey p "function" = true := by
  cases tc with
  | obj fs =>
    rw [parseToolCall] at h
    split at h
    · simp at h
    · rename_i fn hfn
      split at h
      · simp at h
      · simp only [Except.ok.injEq, Option.some.injEq] at h
        subst h
        exact ⟨rfl, by simp [jHasKey, hfn]⟩
      · split at h
        · rename_i gfs
          split at h
          · simp only [Except.ok.injEq, Option.some.injEq] at h
            subst h
            exact ⟨rfl, by simp [jHasKey, lookup_setKey_self]⟩
          · simp only [Except.ok.injEq, Option.some.injEq] at h
            subst h
            exact ⟨rfl, by simp [jHasKey, hfn]⟩
          · simp at h
        · simp at h
  | null => simp [parseToolCall] at h
  | bool b => simp [parseToolCall] at h
  | num n => simp [parseToolCall] at h
  | str s0 => simp [parseToolCall] at h
  | arr xs => simp [parseToolCall] at h

theorem parseToolCall_skip (sd : String → Option JVal) (tc : JVal)
    (h : jIsObj tc = false ∨ jHasKey tc "function" = false) :
    parseToolCall sd tc = Except.ok none := by
  cases tc with
  | obj fs =>
    rcases h with h | h
    · exact absurd h (by simp [jIsObj])
    · have hn : List.lookup "function" fs = none := by
        simpa [jHasKey, Option.isSome_iff_exists] using h
      rw [parseToolCall, hn]
  | null => rfl
  | bool b => rfl
  | num n => rfl
  | str s0 => rfl
  | arr xs => rfl

theorem parseToolCalls_good (sd : String → Option JVal) :
    ∀ tcs out, parseToolCalls sd tcs = Except.ok out →
      ∀ p ∈ out, jIsObj p = true ∧ jHasKey p "function" = true := by
  intro tcs
  induction tcs with
  | nil =>
    intro out h p hp
    simp only [parseToolCalls, Except.ok.injEq] at h
    subst h
    simp at hp
  | cons tc rest ih =>
    intro out h p hp
    rw [parseToolCalls] at h
    split at h
    · simp at h
    · exact ih _ h p hp
    · rename_i p0 hp0
      split at h
      · simp at h
      · rename_i ps hps
        simp only [Except.ok.injEq] at h
        subst h
        rcases List.mem_cons.mp hp with rfl | hmem
        · exact parseToolCall_good sd tc p hp0
        · exact ih ps hps p hmem

theorem parseMessage_ok_toolCalls (sd : String → Option JVal)
    (rd message : JVal) (r : ChatResult)
    (h : parseMessage sd rd message = Except.ok r) :
    ∃ entries, parseToolCalls sd entries = Except.ok r.tool_calls := by
  rw [parseMessage] at h
  split at h
  · simp at h
  · split at h
    · simp at h
    · split at h
      · simp at h
      · split at h
        · simp at h
        · rename_i entries h4
          split at h
          · simp at h
          · rename_i parsed h5
            split at h
            · simp at h
            · split at h
              · simp at h
              · simp only [Except.ok.injEq] at h
                subst h
                exact ⟨entries, h5⟩

theorem parseResponse_ok_toolCalls (sd : String → Option JVal)
    (body : Option JVal) (r : ChatResult)
    (h : parseResponse sd body = Except.ok r) :
    ∃ entries, parseToolCalls sd entries = Except.ok r.tool_calls := by
  cases body with
  | none => simp [parseResponse] at h
  | some rd =>
    rw [parseResponse] at h
    split at h
    · simp at h
    · split at h
      · simp at h
      · split at h
        · simp at h
        · split at h
          · simp at h
          · split at h
            · simp at h
            · split at h
              · simp at h
              · split at h
                · simp at h
                · split at h
                  · simp at h
                  · split at h
                    · simp at h
                    · split at h
                      · simp at h
                      · rename_i message hmsg
                        exact parseMessage_ok_toolCalls sd rd message r h

/-- C4: retries use at most three total attempts; the configured backoff
    delays are 1s then 2s then 4s with the last entry repeating for larger
    attempt indices; when every attempt fails transiently (5xx, network
    error or timeout) exactly three attempts are made with backoff sleeps
    before the second and third, and the call surfaces an error; a 429 is
    retried after the Retry-After hint when present and otherwise after the
    backoff delay; and a run of nothing but 429 responses makes all three
    attempts and raises the 429 as a failure instead of swallowing it. -/
theorem C4_retry_policy (env : ℕ → HttpOutcome) (sd : String → Option JVal) :
    (backoffDelay 0 = 1 ∧ backoffDelay 1 = 2 ∧ ∀ k, 2 ≤ k → backoffDelay k = 4) ∧
    (chat_completion env sd).attempts ≤ max_attempts ∧
    (TransientOutcome (env 0) → TransientOutcome (env 1) → TransientOutcome (env 2) →
      (chat_completion env sd).attempts = 3 ∧
      (chat_completion env sd).sleeps = [backoffDelay 0, backoffDelay 1] ∧
      ∃ e, (chat_completion env sd).result = Except.error e) ∧
    (∀ ra b, env 0 = HttpOutcome.response 429 ra b →
      (chat_completion env sd).sleeps.head? = some (ra.getD (backoffDelay 0)) ∧
      2 ≤ (chat_completion env sd).attempts) ∧
    (∀ ra b, (∀ k, env k = HttpOutcome.response 429 ra b) →
      chat_completion env sd =
        ⟨Except.error (CallErr.httpStatus 429),
         [ra.getD (backoffDelay 0), ra.getD (backoffDelay 1)], 3⟩) := by
  refine ⟨⟨rfl, rfl, ?_⟩, ?_, ?_, ?_, ?_⟩
  · intro k hk
    simp [backoffDelay, delays, Nat.min_eq_right hk]
  · simpa using chatAttempt_attempts_le env sd 3 0
  · intro h0 h1 h2
    have e0 : chat_completion env sd =
        addSleep (backoffDelay 0) (chatAttempt env sd 2 1) :=
      chatAttempt_transient_retry env sd 2 0 h0 (by norm_num [max_attempts])
    have e1 : chatAttempt env sd 2 1 =
        addSleep (backoffDelay 1) (chatAttempt env sd 1 2) :=
      chatAttempt_transient_retry env sd 1 1 h1 (by norm_num [max_attempts])
    obtain ⟨e, e2⟩ :=
      chatAttempt_transient_final env sd 0 2 h2 (by norm_num [max_attempts])
    rw [e0, e1, e2]
    exact ⟨rfl, rfl, e, rfl⟩
  · intro ra b h
    have e0 : chat_completion env sd =
        addSleep (ra.getD (backoffDelay 0)) (chatAttempt env sd 2 1) := by
      show chatAttempt env sd (2 + 1) 0 = _
      rw [chatAttempt_succ, h]
      simp [max_attempts]
    constructor
    · rw [e0]
      rfl
    · rw [e0, addSleep_attempts]
      simpa using chatAttempt_attempts_ge env sd 2 1
  · intro ra b hk
    have e0 : chat_completion env sd =
        addSleep (ra.getD (backoffDelay 0)) (chatAttempt env sd 2 1) := by
      show chatAttempt env sd (2 + 1) 0 = _
      rw [chatAttempt_succ, hk 0]
      simp [max_attempts]
    have e1 : chatAttempt env sd 2 1 =
        addSleep (ra.getD (backoffDelay 1)) (chatAttempt env sd 1 2) := by
      show chatAttempt env sd (1 + 1) 1 = _
      rw [chatAttempt_succ, hk 1]
      simp [max_attempts]
    have e2 : chatAttempt env sd 1 2 =
        ⟨Except.error (CallErr.httpStatus 429), [], 3⟩ := by
      show chatAttempt env sd (0 + 1) 2 = _
      rw [chatAttempt_succ, hk 2]
      simp [max_attempts]
    rw [e0, e1, e2]
    rfl

/-- Witness for C4: a run of nothing but request errors makes three
    attempts with sleeps of 1s and 2s and fails; a run of nothing but 429
    responses carrying Retry-After 7 sleeps 7s before each retry and raises
    the 429 after the third attempt. -/
theorem C4_retry_policy_witness :
    ((chat_completion (fun _ => HttpOutcome.requestError) (fun _ => none)).attempts = 3 ∧
      (chat_completion (fun _ => HttpOutcome.requestError) (fun _ => none)).sleeps =
        [backoffDelay 0, backoffDelay 1] ∧
      ∃ e, (chat_completion (fun _ => HttpOutcome.requestError) (fun _ => none)).result =
        Except.error e) ∧
    ((chat_completion (fun _ => HttpOutcome.response 429 (some 7) none)
        (fun _ => none)).sleeps.head? = some ((some (7 : ℚ)).getD (backoffDelay 0)) ∧
      2 ≤ (chat_completion (fun _ => HttpOutcome.response 429 (some 7) none)
        (fun _ => none)).attempts) ∧
    chat_completion (fun _ => HttpOutcome.response 429 (some 7) none) (fun _ => none) =
      ⟨Except.error (CallErr.httpStatus 429),
       [(some (7 : ℚ)).getD (backoffDelay 0), (some (7 : ℚ)).getD (backoffDelay 1)], 3⟩ := by
  refine ⟨(C4_retry_policy (fun _ => HttpOutcome.requestError) (fun _ => none)).2.2.1
      (Or.inl rfl) (Or.inl rfl) (Or.inl rfl),
    (C4_retry_policy (fun _ => HttpOutcome.response 429 (some 7) none)
      (fun _ => none)).2.2.2.1 (some 7) none rfl,
    (C4_retry_policy (fun _ => HttpOutcome.response 429 (some 7) none)
      (fun _ => none)).2.2.2.2 (some 7) none (fun k => rfl)⟩

/-- C5: counter-evidence for the claim that validation failures are never
    retried.  A 200 response whose body is the dict with a single non-dict
    field error = 5 (so the choices field is missing) drives the diagnostic
    branch into error_info.get, which raises AttributeError instead of the
    intended ValueError; the generic handler retries it, so the call makes
    three attempts with backoff sleeps and surfaces the unexpected error —
    not a same-attempt failure with a parse-error kind. -/
theorem C5_missing_choices_diagnostic_retried :
    chat_completion (fun _ => HttpOutcome.response 200 none
        (some (JVal.obj [("error", JVal.num 5)]))) (fun _ => none) =
      ⟨Except.error CallErr.unexpected, [backoffDelay 0, backoffDelay 1], 3⟩ := rfl

/-- C10: every tool call returned by a successful chat_completion is a dict
    containing a function field; and an entry that is not a dict, or lacks
    a function field, contributes nothing to the parsed list (it is
    dropped). -/
theorem C10_tool_calls_validated (env : ℕ → HttpOutcome) (sd : String → Option JVal) :
    (∀ r, (chat_completion env sd).result = Except.ok r →
      ∀ tc ∈ r.tool_calls, jIsObj tc = true ∧ jHasKey tc "function" = true) ∧
    (∀ tc, jIsObj tc = false ∨ jHasKey tc "function" = false →
      ∀ rest, parseToolCalls sd (tc :: rest) = parseToolCalls sd rest) := by
  constructor
  · intro r h tc htc
    obtain ⟨body, hb⟩ := chatAttempt_ok_parse env sd max_attempts 0 r h
    obtain ⟨entries, he⟩ := parseResponse_ok_toolCalls sd body r hb
    exact parseToolCalls_good sd entries r.tool_calls he tc htc
  · intro tc h rest
    rw [parseToolCalls, parseToolCall_skip sd tc h]

/-- Witness for C10: a response whose message carries one well-formed tool
    call and one string entry yields exactly the well-formed dict (which has
    a function field), and a bare string entry is dropped by the parser. -/
theorem C10_tool_calls_validated_witness :
    (jIsObj (JVal.obj [("function", JVal.obj [("name", JVal.str "web_search")])]) = true ∧
      jHasKey (JVal.obj [("function", JVal.obj [("name", JVal.str "web_search")])])
        "function" = true) ∧
    parseToolCalls (fun _ => none) [JVal.str "bad"] =
      parseToolCalls (fun _ => none) [] := by
  constructor
  · exact (C10_tool_calls_validated (fun _ => HttpOutcome.response 200 none
        (some (JVal.obj [("choices", JVal.arr [JVal.obj [("message", JVal.obj
          [("tool_calls", JVal.arr [JVal.obj [("function", JVal.obj
            [("name", JVal.str "web_search")])], JVal.str "bad"]),
           ("content", JVal.str "")])]])]))) (fun _ => none)).1
      ⟨[JVal.obj [("function", JVal.obj [("name", JVal.str "web_search")])]],
        JVal.str "",
        JVal.obj [("tool_calls", JVal.arr [JVal.obj [("function", JVal.obj
          [("name", JVal.str "web_search")])], JVal.str "bad"]),
         ("content", JVal.str "")],
        JVal.obj []⟩
      rfl
      (JVal.obj [("function", JVal.obj [("name", JVal.str "web_search")])])
      (List.Mem.head _)
  · exact (C10_tool_calls_validated (fun _ => HttpOutcome.requestError)
      (fun _ => none)).2 (JVal.str "bad") (Or.inl rfl) []

theorem sendToAll_eq (fails : ℕ → Bool) (l : List ℕ) :
    sendToAll fails l = (l.filter (fun c => !(fails c)), l.filter fails) := by
  induction l with
  | nil => rfl
  | cons c rest ih =>
    by_cases h : fails c
    · simp [sendToAll, ih, h]
    · simp [sendToAll, ih, h]

/-- C7: publishing to a job delivers the event to exactly the subscribers
    whose send does not fail (in particular to every non-failing one), and
    afterwards the job's subscriber set consists of exactly the non-failing
    subscribers: every failing one has been removed.  The broadcast is a
    total function of the map and the failure oracle, so no delivery error
    reaches the publisher. -/
theorem C7_broadcast_prunes_failures (m : String → List ℕ) (jobId : String)
    (fails : ℕ → Bool) :
    (broadcast_to_job m jobId fails).2 = (m jobId).filter (fun c => !(fails c)) ∧
    (broadcast_to_job m jobId fails).1 jobId =
      (m jobId).filter (fun c => !(fails c)) := by
  unfold broadcast_to_job
  by_cases hempty : m jobId = []
  · simp [hempty]
  · rw [if_neg hempty]
    constructor
    · simp [sendToAll_eq]
    · simp only [if_pos rfl, sendToAll_eq]
      apply List.filter_congr
      intro c hc
      have hcon : ((m jobId).filter fails).contains c = fails c := by
        by_cases hf : fails c
        · simp [List.elem_iff, List.mem_filter, hc, hf]
        · simp [List.elem_iff, List.mem_filter, hf]
      rw [hcon]

/-- C9: a provider failure of any kind — an HTTP error status, a network
    error, a timeout, or any other exception — makes search return the
    empty list, which is exactly what a successful query with zero results
    returns, so the two are indistinguishable to the caller. -/
theorem C9_provider_failure_empty (query : String ⊕ List String) (count : ℕ) :
    (∀ st, web_search query count (SearchOutcome.httpStatusError st) = []) ∧
    web_search query count SearchOutcome.requestError = [] ∧
    web_search query count SearchOutcome.timeoutError = [] ∧
    web_search query count SearchOutcome.otherError = [] ∧
    (∀ st, web_search query count (SearchOutcome.httpStatusError st) =
      web_search query count (SearchOutcome.success
        (JVal.obj [("web", JVal.obj [("results", JVal.arr [])])]))) := by
  have h1 : ∀ q st, web_searchStr q count (SearchOutcome.httpStatusError st) = [] := by
    intro q st
    unfold web_searchStr
    split <;> rfl
  have h2 : ∀ q, web_searchStr q count SearchOutcome.requestError = [] := by
    intro q
    unfold web_searchStr
    split <;> rfl
  have h3 : ∀ q, web_searchStr q count SearchOutcome.timeoutError = [] := by
    intro q
    unfold web_searchStr
    split <;> rfl
  have h4 : ∀ q, web_searchStr q count SearchOutcome.otherError = [] := by
    intro q
    unfold web_searchStr
    split <;> rfl
  have h5 : ∀ q, web_searchStr q count (SearchOutcome.success
      (JVal.obj [("web", JVal.obj [("results", JVal.arr [])])])) = [] := by
    intro q
    unfold web_searchStr
    split
    · rfl
    · simp [searchItems, collectResults, List.lookup]
  cases query with
  | inl q =>
    exact ⟨fun st => h1 q st, h2 q, h3 q, h4 q,
      fun st => (h1 q st).trans (h5 q).symm⟩
  | inr l =>
    cases l with
    | nil => exact ⟨fun _ => rfl, rfl, rfl, rfl, fun _ => rfl⟩
    | cons q rest =>
      exact ⟨fun st => h1 q st, h2 q, h3 q, h4 q,
        fun st => (h1 q st).trans (h5 q).symm⟩

theorem takeWhile_all_append (p : Char → Bool) (w r : List Char)
    (h : ∀ c ∈ w, p c = true) :
    (w ++ r).takeWhile p = w ++ r.takeWhile p :=
  List.takeWhile_append_of_pos h

theorem dropWhile_all_append (p : Char → Bool) (w r : List Char)
    (h : ∀ c ∈ w, p c = true) :
    (w ++ r).dropWhile p = r.dropWhile p :=
  List.dropWhile_append_of_pos h

theorem takeWhile_all (p : Char → Bool) (w : List Char)
    (h : ∀ c ∈ w, p c = true) : w.takeWhile p = w := by
  have := takeWhile_all_append p w [] h
  simpa using this

theorem dropWhile_all (p : Char → Bool) (w : List Char)
    (h : ∀ c ∈ w, p c = true) : w.dropWhile p = [] := by
  have := dropWhile_all_append p w [] h
  simpa using this

theorem dropWhile_length_le (p : Char → Bool) (l : List Char) :
    (l.dropWhile p).length ≤ l.length := by
  induction l with
  | nil => simp
  | cons a t ih =>
    rw [List.dropWhile_cons]
    split
    · exact Nat.le_trans ih (by simp)
    · simp

theorem splitWords_all (s : List Char) :
    ∀ w ∈ splitWords s, w ≠ [] ∧ ∀ c ∈ w, isWsChar c = false := by
  have key : ∀ n (t : List Char), t.length ≤ n →
      ∀ w ∈ splitWords t, w ≠ [] ∧ ∀ c ∈ w, isWsChar c = false := by
    intro n
    induction n with
    | zero =>
      intro t ht
      have : t = [] := List.length_eq_zero.mp (Nat.le_zero.mp ht)
      subst this
      intro w hw
      simp [splitWords] at hw
    | succ n ih =>
      intro t ht
      cases t with
      | nil => intro w hw; simp [splitWords] at hw
      | cons c cs =>
        by_cases hc : isWsChar c
        · rw [show splitWords (c :: cs) = splitWords cs by rw [splitWords]; simp [hc]]
          exact ih cs (by simp at ht; omega)
        · rw [show splitWords (c :: cs) =
              ((c :: cs).takeWhile (fun d => !(isWsChar d))) ::
                splitWords ((c :: cs).dropWhile (fun d => !(isWsChar d)))
            by rw [splitWords]; simp [hc]]
          intro w hw
          rcases List.mem_cons.mp hw with rfl | hmem
          · constructor
            · simp [List.takeWhile_cons, hc]
            · intro x hx
              have := List.mem_takeWhile_imp hx
              simpa using this
          · refine ih _ ?_ w hmem
            have h1 : (c :: cs).dropWhile (fun d => !(isWsChar d)) =
                cs.dropWhile (fun d => !(isWsChar d)) := by
              rw [List.dropWhile_cons]
              simp [hc]
            rw [h1]
            have := dropWhile_length_le (fun d => !(isWsChar d)) cs
            simp at ht
            omega
  exact key s.length s le_rfl

theorem splitWords_word (w : List Char) (hne : w ≠ [])
    (hall : ∀ c ∈ w, isWsChar c = false) :
    splitWords w = [w] := by
  cases w with
  | nil => exact absurd rfl hne
  | cons c cs =>
    have hc : isWsChar c = false := hall c (by simp)
    rw [splitWords]
    rw [if_neg (by simp [hc])]
    rw [takeWhile_all _ _ (by intro x hx; simp [hall x hx])]
    rw [dropWhile_all _ _ (by intro x hx; simp [hall x hx])]
    rw [show splitWords ([] : List Char) = [] by rw [splitWords]]

theorem splitWords_word_append (w r : List Char) (hne : w ≠ [])
    (hall : ∀ c ∈ w, isWsChar c = false) :
    splitWords (w ++ ' ' :: r) = w :: splitWords r := by
  cases w with
  | nil => exact absurd rfl hne
  | cons c cs =>
    have hc : isWsChar c = false := hall c (by simp)
    have hsp : isWsChar ' ' = true := rfl
    show splitWords ((c :: cs) ++ ' ' :: r) = _
    rw [List.cons_append, splitWords]
    rw [if_neg (by simp [hc])]
    have ht : ((c :: cs) ++ ' ' :: r).takeWhile (fun d => !(isWsChar d)) = c :: cs := by
      rw [takeWhile_all_append _ _ _ (by intro x hx; simp [hall x hx])]
      rw [List.takeWhile_cons]
      simp [hsp]
    have hd : ((c :: cs) ++ ' ' :: r).dropWhile (fun d => !(isWsChar d)) = ' ' :: r := by
      rw [dropWhile_all_append _ _ _ (by intro x hx; simp [hall x hx])]
      rw [List.dropWhile_cons]
      simp [hsp]
    rw [← List.cons_append, ht, hd]
    rw [show splitWords (' ' :: r) = splitWords r by rw [splitWords]; simp [hsp]]

theorem splitWords_joinWords : ∀ ws : List (List Char),
    (∀ w ∈ ws, w ≠ [] ∧ ∀ c ∈ w, isWsChar c = false) →
    splitWords (joinWords ws) = ws := by
  intro ws
  induction ws with
  | nil =>
    intro _
    show splitWords [] = []
    rw [splitWords]
  | cons w ws2 ih =>
    intro h
    cases ws2 with
    | nil =>
      obtain ⟨hne, hall⟩ := h w (by simp)
      simpa [joinWords] using splitWords_word w hne hall
    | cons w2 ws3 =>
      obtain ⟨hne, hall⟩ := h w (by simp)
      show splitWords (w ++ ' ' :: joinWords (w2 :: ws3)) = w :: (w2 :: ws3)
      rw [splitWords_word_append w _ hne hall]
      rw [ih (fun x hx => h x (by simp [hx]))]

/-- C8: when the fetched content has more than 10,000 whitespace-separated
    words, the content returned by fetch is exactly the first 10,000 words
    joined with single spaces on word boundaries, and the reported
    word_count is exactly 10000; content with at most 10,000 words is
    returned unchanged with its own word count. -/
theorem C8_truncation (content : List Char) :
    (10000 < (splitWords content).length →
      fetchTruncation content =
        (joinWords ((splitWords content).take 10000), 10000)) ∧
    ((splitWords content).length ≤ 10000 →
      fetchTruncation content = (content, (splitWords content).length)) := by
  constructor
  · intro h
    have hnle : ¬ (splitWords content).length ≤ 10000 := by omega
    unfold fetchTruncation truncate_content
    rw [if_neg hnle]
    have hall : ∀ w ∈ (splitWords content).take 10000,
        w ≠ [] ∧ ∀ c ∈ w, isWsChar c = false :=
      fun w hw => splitWords_all content w (List.mem_of_mem_take hw)
    show (joinWords ((splitWords content).take 10000),
        (splitWords (joinWords ((splitWords content).take 10000))).length) =
      (joinWords ((splitWords content).take 10000), 10000)
    rw [splitWords_joinWords _ hall, List.length_take]
    rw [Nat.min_eq_left (by omega)]
  · intro h
    unfold fetchTruncation truncate_content
    rw [if_pos h]

/-- Witness for C8 at a concrete input: 10,001 one-letter words joined by
    spaces truncate to the first 10,000 words with word_count 10000. -/
theorem C8_truncation_witness :
    fetchTruncation (joinWords (List.replicate 10001 ['a'])) =
      (joinWords ((splitWords (joinWords (List.replicate 10001 ['a']))).take 10000),
       10000) := by
  have hall : ∀ w ∈ List.replicate 10001 ['a'],
      w ≠ [] ∧ ∀ c ∈ w, isWsChar c = false := by
    intro w hw
    rw [List.eq_of_mem_replicate hw]
    refine ⟨by simp, ?_⟩
    intro c hc
    rw [List.mem_singleton.mp hc]
    rfl
  have hsw : splitWords (joinWords (List.replicate 10001 ['a'])) =
      List.replicate 10001 ['a'] := splitWords_joinWords _ hall
  exact (C8_truncation _).1 (by rw [hsw, List.length_replicate]; norm_num)

end Bletchley
